import Mathlib

/-!
Verification of the nfl-event-parser ETL pipeline.

This file gives a shallow embedding, in Lean 4, of the pure data-processing
core of the pipeline: JSON-like records (insertion-ordered association
lists, modelling Python dicts), the date utilities in
`src/nfl/helpers/dates.py`, the dictionary filter in
`src/nfl/helpers/dictionaries.py`, the command-line validation in
`src/nfl/helpers/command_line.py`, and the pull/transform functions of
`src/nfl/core.py`.  Network calls, the config file, logging and file
output are external collaborators; they are modelled as parameters
(fetch outcomes, field allow-lists) exactly where the source reads them.

Python exceptions are modelled by an explicit error type and `Except`.
Python machine behaviour relevant here: dict assignment keeps the
position of an existing key and appends a fresh key at the end; local
variables of a function persist across loop iterations and referencing
an unassigned one raises UnboundLocalError (a NameError); a `raise`
inside a `finally` block replaces any in-flight exception.
-/

namespace NFL

/-- Python exception outcomes relevant to the pipeline.  `formatError`
models the ValueError raised by `datetime.strptime` on a format
mismatch, `valueError` carries the message of an explicitly raised
ValueError, `keyError` a missing-key access, `nameError` an
UnboundLocalError, `overflowError` a date outside year range 1..9999,
`typeError` a wrongly-typed argument and `systemExit` the
`raise SystemExit` path of the endpoint clients. -/
inductive PyErr where
  | valueError : String → PyErr
  | formatError : PyErr
  | overflowError : PyErr
  | keyError : String → PyErr
  | typeError : PyErr
  | nameError : PyErr
  | systemExit : PyErr
deriving DecidableEq, Repr

/-- JSON scalar values stored in the records: strings and numbers. -/
inductive Value where
  | s : String → Value
  | n : Int → Value
deriving DecidableEq, Repr

/-- A Python dict with string keys, modelled as an insertion-ordered
association list (CPython dicts preserve insertion order). -/
abbrev Dict := List (String × Value)

/-- Lookup of a key in a dict (first match). -/
def dlookup : Dict → String → Option Value
  | [], _ => none
  | (k, v) :: rest, key => if k = key then some v else dlookup rest key

/-- Python dict assignment `d[k] = v`: an existing key keeps its position
and gets the new value, a fresh key is appended at the end. -/
def dictUpdate : Dict → String → Value → Dict
  | [], k, v => [(k, v)]
  | (k0, v0) :: rest, k, v =>
      if k0 = k then (k, v) :: rest else (k0, v0) :: dictUpdate rest k v

/-- Source `filter_dictionary` (src/nfl/helpers/dictionaries.py): the dict
comprehension keeping only the entries whose key is in `keys_to_keep`. -/
def filter_dictionary (dictionary : Dict) (keys_to_keep : List String) : Dict :=
  dictionary.filter (fun kv => keys_to_keep.contains kv.1)

/-! ## Character and digit utilities

The date functions in the source delegate their parsing and rendering to
`datetime.strptime` / `strftime`.  The embedding models those library
calls at the character level. -/

/-- Decimal digit character for n in 0..9 (the catch-all arm is only
reached for arguments ≥ 9, which the formatters never produce). -/
def digitChar : Nat → Char
  | 0 => '0' | 1 => '1' | 2 => '2' | 3 => '3' | 4 => '4'
  | 5 => '5' | 6 => '6' | 7 => '7' | 8 => '8' | _ => '9'

/-- Numeric value of a digit character. -/
def digitVal (c : Char) : Nat := c.toNat - 48

/-- Decimal digit test (code points 48..57, as `Char.isDigit`). -/
def isDigitChar (c : Char) : Bool := decide (48 ≤ c.toNat ∧ c.toNat ≤ 57)

/-- Value of a digit string, most significant digit first. -/
def natOfDigits (cs : List Char) : Nat :=
  cs.foldl (fun a c => a * 10 + digitVal c) 0

/-- Two-digit zero-padded rendering (strftime `%m`, `%d`, `%H`, `%M`). -/
def pad2 (n : Nat) : List Char :=
  [digitChar (n / 10 % 10), digitChar (n % 10)]

/-- Four-digit zero-padded rendering (strftime `%Y` as documented;
padding of years below 1000 is platform-dependent in CPython, the
model follows the documented zero-padded form). -/
def pad4 (n : Nat) : List Char :=
  [digitChar (n / 1000 % 10), digitChar (n / 100 % 10),
   digitChar (n / 10 % 10), digitChar (n % 10)]

/-- Splitting of a character list at every character satisfying `p`,
keeping empty pieces, like Python `str.split(sep)` for a one-character
separator. -/
def splitOnP (p : Char → Bool) : List Char → List (List Char)
  | [] => [[]]
  | c :: cs =>
      match splitOnP p cs with
      | [] => [[]]
      | t :: ts => if p c then [] :: t :: ts else (c :: t) :: ts

/-- Bounded digit-run check used by the strptime model: `lo ≤ |cs| ≤ hi`
and every character a decimal digit. -/
def goodDigits (cs : List Char) (lo hi : Nat) : Bool :=
  decide (lo ≤ cs.length) && decide (cs.length ≤ hi) && cs.all isDigitChar

/-! ## Calendar model

`datetime.date` supports years 1..9999 with the proleptic Gregorian
calendar; adding a `timedelta` of days walks the calendar day by day
(implemented in CPython through day ordinals) and raises OverflowError
past 9999-12-31. -/

/-- Gregorian leap-year rule. -/
def isLeap (y : Nat) : Bool :=
  y % 4 == 0 && (y % 100 != 0 || y % 400 == 0)

/-- Number of days of month m in year y. -/
def daysInMonth (y m : Nat) : Nat :=
  if m = 2 then (if isLeap y then 29 else 28)
  else if m = 4 ∨ m = 6 ∨ m = 9 ∨ m = 11 then 30
  else 31

/-- Valid proleptic Gregorian date with the year range of `datetime`
left open upward (the 9999 cap is enforced by the overflow check). -/
def validDate : Nat × Nat × Nat → Prop
  | (y, m, d) => 1 ≤ y ∧ 1 ≤ m ∧ m ≤ 12 ∧ 1 ≤ d ∧ d ≤ daysInMonth y m

instance : DecidablePred validDate := by
  intro x
  obtain ⟨y, m, d⟩ := x
  unfold validDate
  infer_instance

/-- The next calendar day. -/
def succDate : Nat × Nat × Nat → Nat × Nat × Nat
  | (y, m, d) =>
      if d < daysInMonth y m then (y, m, d + 1)
      else if m < 12 then (y, m + 1, 1)
      else (y + 1, 1, 1)

/-! ## strptime / strftime models for the two formats of dates.py -/

/-- Model of `datetime.strptime(s, "%Y-%m-%d")` on a character list.
CPython compiles `%Y` to exactly four digits, `%m` and `%d` to one or
two digits with values 1..12 and 1..31, then the `datetime` constructor
rejects year 0 and a day beyond the length of the month; every failure
is a ValueError. -/
def parseYMDchars (cs : List Char) : Option (Nat × Nat × Nat) :=
  match splitOnP (fun c => c == '-') cs with
  | [ys, ms, ds] =>
      if goodDigits ys 4 4 && goodDigits ms 1 2 && goodDigits ds 1 2 then
        if validDate (natOfDigits ys, natOfDigits ms, natOfDigits ds) then
          some (natOfDigits ys, natOfDigits ms, natOfDigits ds)
        else none
      else none
  | _ => none

/-- Model of `datetime.strptime(s, "%Y-%m-%d")` on a string. -/
def parseYMD (s : String) : Option (Nat × Nat × Nat) :=
  parseYMDchars s.data

/-- Model of the `%H:%M` part of strptime: hours one or two digits with
value 0..23, minutes one or two digits with value 0..59. -/
def parseHMchars (cs : List Char) : Option (Nat × Nat) :=
  match splitOnP (fun c => c == ':') cs with
  | [hs, ms] =>
      if goodDigits hs 1 2 && goodDigits ms 1 2 then
        if natOfDigits hs ≤ 23 ∧ natOfDigits ms ≤ 59 then
          some (natOfDigits hs, natOfDigits ms)
        else none
      else none
  | _ => none

/-- Model of `datetime.strptime(s, "%Y-%m-%d %H:%M")`: strptime turns the
literal space of the format into the regex `\s+`, so the date and time
parts are separated by one or more whitespace characters, with no
leading or trailing whitespace. -/
def parseYMDHM (s : String) : Option (Nat × Nat × Nat × Nat × Nat) :=
  let toks := splitOnP (fun c => c.isWhitespace) s.data
  match toks.filter (fun t => !t.isEmpty) with
  | [dp, tp] =>
      if toks.head? = some [] ∨ toks.getLast? = some [] then none
      else
        match parseYMDchars dp, parseHMchars tp with
        | some (y, m, d), some (hh, mm) => some (y, m, d, hh, mm)
        | _, _ => none
  | _ => none

/-- Rendering `strftime("%Y-%m-%d")`. -/
def formatYMD : Nat × Nat × Nat → String
  | (y, m, d) => String.mk (pad4 y ++ '-' :: (pad2 m ++ '-' :: pad2 d))

/-- Rendering `strftime("%d-%m-%Y")` (day-first, as split_datetime does). -/
def formatDMY (y m d : Nat) : String :=
  String.mk (pad2 d ++ '-' :: (pad2 m ++ '-' :: pad4 y))

/-- Rendering `strftime("%H:%M")`. -/
def formatHM (hh mm : Nat) : String :=
  String.mk (pad2 hh ++ ':' :: pad2 mm)

/-! ## dates.py -/

/-- Source `generate_end_date` (src/src/nfl/helpers/dates.py): parses the
start date with `strptime("%Y-%m-%d")`, adds `timedelta(days=delta)` and
re-renders with the same format.  The day addition of `timedelta` is
modelled as iterating the calendar successor; its overflow check past
9999-12-31 raises OverflowError.  The delta reaching this function is
the CLI delta already validated to the range 0..7, hence a `Nat`. -/
def generate_end_date (start_date : String) (delta : Nat) : Except PyErr String :=
  match parseYMD start_date with
  | none => .error .formatError
  | some ymd =>
      if (succDate^[delta] ymd).1 ≤ 9999 then .ok (formatYMD (succDate^[delta] ymd))
      else .error .overflowError

/-- Source `split_datetime` (src/src/nfl/helpers/dates.py): parses the
combined field with `strptime("%Y-%m-%d %H:%M")` and re-renders the date
as `%d-%m-%Y` and the time as `%H:%M`. -/
def split_datetime (date_time : String) : Except PyErr (String × String) :=
  match parseYMDHM date_time with
  | none => .error .formatError
  | some (y, m, d, hh, mm) => .ok (formatDMY y m d, formatHM hh mm)

/-- Message of the KeyError raised by `add_date_and_time` when the
`event_date` key is absent. -/
def missingEventDateMsg : String :=
  "event_date column not present in response fields provided. " ++
  "Check config.json to ensure it was not removed from " ++
  "SCOREBOARD[\x27fields_of_interest\x27]."

/-- Body of the per-record loop of `add_date_and_time`: reads the
`event_date` key (KeyError if absent, caught and re-raised with a
descriptive message), splits it with `split_datetime` (whose ValueError
propagates uncaught; a non-string value makes strptime raise TypeError)
and writes the two components back into the record. -/
def splitRecord (r : Dict) : Except PyErr Dict :=
  match dlookup r "event_date" with
  | none => .error (.keyError missingEventDateMsg)
  | some (.n _) => .error .typeError
  | some (.s dt) =>
      match split_datetime dt with
      | .error e => .error e
      | .ok (dStr, tStr) =>
          .ok (dictUpdate (dictUpdate r "event_date" (.s dStr))
                "event_time" (.s tStr))

/-- Source `add_date_and_time` (src/src/nfl/helpers/dates.py): applies
`splitRecord` to every record in order, stopping at the first error. -/
def add_date_and_time : List Dict → Except PyErr (List Dict)
  | [] => .ok []
  | r :: rs =>
      match splitRecord r with
      | .error e => .error e
      | .ok r2 =>
          match add_date_and_time rs with
          | .error e => .error e
          | .ok rest => .ok (r2 :: rest)

/-! ## core.py: scoreboard extraction -/

/-- One per-day bucket of the scoreboard `results` mapping.  A day
without games is a falsy (empty) JSON collection, modelled as `none`;
a truthy bucket carries its `data` mapping of event id to event
fields. -/
abbrev ScoreboardBucket := Option (List (String × Dict))

/-- Source `_extract_scoreboard_fields_of_interest` (src/src/nfl/core.py):
walks the per-day buckets in order, skips falsy buckets, and for every
game entry of a truthy bucket keeps the allow-listed fields and attaches
the entry key as `event_id`.  The allow-list comes from the config file
(an external collaborator), hence a parameter. -/
def extract_scoreboard_fields_of_interest
    (complete_scoreboard_data : List (String × ScoreboardBucket))
    (fields_of_interest : List String) : List Dict :=
  match complete_scoreboard_data with
  | [] => []
  | (_, none) :: rest =>
      extract_scoreboard_fields_of_interest rest fields_of_interest
  | (_, some games) :: rest =>
      (games.map (fun g =>
        dictUpdate (filter_dictionary g.2 fields_of_interest) "event_id" (.s g.1)))
      ++ extract_scoreboard_fields_of_interest rest fields_of_interest

/-! ## core.py: transform -/

/-- Canonical output key order of `transform_json_data`. -/
def desired_key_order : List String :=
  ["event_id", "event_date", "event_time",
   "away_team_id", "away_nick_name", "away_city", "away_rank", "away_rank_points",
   "home_team_id", "home_nick_name", "home_city", "home_rank", "home_rank_points"]

/-- State of the four rank local variables of the join loop in
`transform_json_data`.  They are function-locals of the Python source:
they start unassigned (`none`) and persist across iterations of the
outer event loop. -/
structure RankState where
  awayRank : Option Value
  awayPoints : Option Value
  homeRank : Option Value
  homePoints : Option Value
deriving DecidableEq, Repr

/-- Rank variables before the first event is processed. -/
def initRankState : RankState := ⟨none, none, none, none⟩

/-- Whether a ranking record carries the given team id. -/
def teamMatches (tid : Value) (t : Dict) : Bool :=
  dlookup t "team_id" == some tid

/-- Inner loop of `transform_json_data` over the ranking records: a
record whose `team_id` equals the away id assigns the away pair, else
one equal to the home id assigns the home pair (Python `elif`), reading
`rank` first and `adjusted_points` second (KeyError if absent). -/
def scanRankings (awayId homeId : Value) : List Dict → RankState → Except PyErr RankState
  | [], st => .ok st
  | team :: rest, st =>
      match dlookup team "team_id" with
      | none => .error (.keyError "team_id")
      | some tid =>
          if tid = awayId then
            match dlookup team "rank" with
            | none => .error (.keyError "rank")
            | some r =>
                match dlookup team "adjusted_points" with
                | none => .error (.keyError "adjusted_points")
                | some p =>
                    scanRankings awayId homeId rest
                      ⟨some r, some p, st.homeRank, st.homePoints⟩
          else if tid = homeId then
            match dlookup team "rank" with
            | none => .error (.keyError "rank")
            | some r =>
                match dlookup team "adjusted_points" with
                | none => .error (.keyError "adjusted_points")
                | some p =>
                    scanRankings awayId homeId rest
                      ⟨st.awayRank, st.awayPoints, some r, some p⟩
          else scanRankings awayId homeId rest st

/-- The reordering dict comprehension
`{key: event[key] for key in desired_key_order}`: reads the keys in
order, KeyError at the first absent one. -/
def buildOrdered (event : Dict) : List String → Except PyErr Dict
  | [] => .ok []
  | k :: ks =>
      match dlookup event k with
      | none => .error (.keyError k)
      | some v =>
          match buildOrdered event ks with
          | .error e => .error e
          | .ok rest => .ok ((k, v) :: rest)

/-- Body of the outer event loop of `transform_json_data`: reads the two
team ids (KeyError if absent), scans the rankings, then writes the four
rank fields — referencing an unassigned rank variable raises
UnboundLocalError — and finally reorders the keys. -/
def processEvent (team_rankings : List Dict) (event : Dict) (st : RankState) :
    Except PyErr (Dict × RankState) :=
  match dlookup event "away_team_id" with
  | none => .error (.keyError "away_team_id")
  | some awayId =>
      match dlookup event "home_team_id" with
      | none => .error (.keyError "home_team_id")
      | some homeId =>
          match scanRankings awayId homeId team_rankings st with
          | .error e => .error e
          | .ok st2 =>
              match st2.awayRank, st2.awayPoints with
              | some ar, some ap =>
                  match st2.homeRank, st2.homePoints with
                  | some hr, some hpv =>
                      match buildOrdered
                          (dictUpdate (dictUpdate (dictUpdate (dictUpdate event
                            "away_rank" ar) "away_rank_points" ap)
                            "home_rank" hr) "home_rank_points" hpv)
                          desired_key_order with
                      | .error e => .error e
                      | .ok rec => .ok (rec, st2)
                  | _, _ => .error .nameError
              | _, _ => .error .nameError

/-- Outer event loop of `transform_json_data`, threading the persistent
rank variables through the iterations. -/
def transformLoop (team_rankings : List Dict) : List Dict → RankState → Except PyErr (List Dict)
  | [], _ => .ok []
  | e :: es, st =>
      match processEvent team_rankings e st with
      | .error err => .error err
      | .ok (rec, st2) =>
          match transformLoop team_rankings es st2 with
          | .error err => .error err
          | .ok recs => .ok (rec :: recs)

/-- Source `transform_json_data` (src/src/nfl/core.py): splits the
datetime field of every event, then joins rankings into the events and
reorders the keys.  The `@Logger` decoration is an external audit-log
side effect and does not alter the value. -/
def transform_json_data (scoreboard_data team_rankings : List Dict) :
    Except PyErr (List Dict) :=
  match add_date_and_time scoreboard_data with
  | .error e => .error e
  | .ok dated => transformLoop team_rankings dated initRankState

/-! ## core.py: pull_json_data -/

/-- Outcome of one endpoint client call (`_pull_scoreboard_data` or
`_pull_team_rankings`), an external collaborator doing HTTP: a list of
filtered records, or a raised ValueError (bad date format), TypeError
(bad delta type) or SystemExit (network-level failure). -/
inductive FetchOutcome where
  | ok : List Dict → FetchOutcome
  | valueErr : String → FetchOutcome
  | typeErr : FetchOutcome
  | systemExit : FetchOutcome
deriving DecidableEq, Repr

/-- Message raised by the finally clause of `pull_json_data`. -/
def noDataMsg : String :=
  "No scoreboard data was returned for the specified " ++
  "starting date and delta provided. Either no data exists, " ++
  "or a date out of range was entered by mistake. Please check " ++
  "that the starting date provided is correct."

/-- Suffix appended to a caught ValueError by `pull_json_data`. -/
def badDateMsg : String :=
  "Please pass a correct starting date, such as 2000-12-20."

/-- Message of the ValueError raised for a caught TypeError. -/
def badDeltaMsg : String :=
  "Must pass a time delta between 0 and 7 days (inclusive)."

/-- Truthiness of the `scoreboard_data` local at the finally clause:
`None` unless the scoreboard fetch returned, an empty list still falsy. -/
def scoreboardFalsy : FetchOutcome → Bool
  | .ok (_ :: _) => false
  | _ => true

/-- Source `pull_json_data` (src/src/nfl/core.py), as a function of the
two fetch outcomes.  The try block binds the scoreboard result then the
rankings result; `except ValueError` re-raises with a date hint appended,
`except TypeError` re-raises as a ValueError about the delta; the
`finally` clause tests the `scoreboard_data` local for truthiness and
unconditionally raises on falsy data, replacing any in-flight
exception (Python `raise` in `finally` discards the active exception). -/
def pull_json_data (sbFetch trFetch : FetchOutcome) :
    Except PyErr (List Dict × List Dict) :=
  let body : Except PyErr (List Dict × List Dict) :=
    match sbFetch with
    | .ok sb =>
        match trFetch with
        | .ok tr => .ok (sb, tr)
        | .valueErr m => .error (.valueError (m ++ ". " ++ badDateMsg))
        | .typeErr => .error (.valueError badDeltaMsg)
        | .systemExit => .error .systemExit
    | .valueErr m => .error (.valueError (m ++ ". " ++ badDateMsg))
    | .typeErr => .error (.valueError badDeltaMsg)
    | .systemExit => .error .systemExit
  if scoreboardFalsy sbFetch then .error (.valueError noDataMsg) else body

/-! ## command_line.py and main.py -/

/-- Message for a wrong argument count. -/
def argCountMsg : String :=
  "The expected input includes starting date and a delta in days. " ++
  "Example: python main.py 2020-01-12 7"

/-- Message for a start date that does not split into three parts. -/
def dateFormatMsg : String :=
  "Please pass a starting date (including a year, month, " ++
  "and date) in the following format: YYYY-MM-DD."

/-- Message for a delta outside 0..7. -/
def deltaRangeMsg : String :=
  "The delta provided must be between 0 and 7 days inclusive."

/-- Message of the ValueError raised by `int()` on a bad literal (the
CPython message additionally quotes the literal). -/
def intLiteralMsg (s : String) : String :=
  "invalid literal for int() with base 10: " ++ s

/-- Whitespace stripped by Python `int(str)`. -/
def isPySpace (c : Char) : Bool :=
  c == ' ' || c == '\t' || c == '\n' || c == '\r' || c == '\x0b' || c == '\x0c'

/-- Digit run with optional single underscores between digits, the core
of the Python integer literal grammar accepted by `int()`. -/
def digitsU : List Char → Option Nat
  | [] => none
  | c :: rest =>
      if isDigitChar c then digitsUAux (digitVal c) rest else none
where
  digitsUAux (acc : Nat) : List Char → Option Nat
    | [] => some acc
    | '_' :: c :: rest =>
        if isDigitChar c then digitsUAux (acc * 10 + digitVal c) rest else none
    | '_' :: [] => none
    | c :: rest =>
        if isDigitChar c then digitsUAux (acc * 10 + digitVal c) rest else none

/-- Model of Python `int(s)` for a string argument: strips surrounding
whitespace, accepts an optional sign and a digit run with single
underscores between digits; anything else raises ValueError. -/
def pyIntParse (s : String) : Option Int :=
  let cs := ((s.data.dropWhile isPySpace).reverse.dropWhile isPySpace).reverse
  match cs with
  | '+' :: rest => (digitsU rest).map Int.ofNat
  | '-' :: rest => (digitsU rest).map (fun n => -(n : Int))
  | rest => (digitsU rest).map Int.ofNat

/-- Source `check_command_line_arguments`
(src/nfl/helpers/command_line.py): checks the argument count, then that
the date splits on `-` into three parts, then evaluates
`int(argv[2]) in range(0, 8)` — the conversion itself raising ValueError
on a non-integer literal before the range is ever compared.  List access
is modelled with a default as the source is only called with
`argc = len(argv)`. -/
def check_command_line_arguments (argc : Nat) (argv : List String) :
    Except PyErr Unit :=
  if argc ≠ 3 then .error (.valueError argCountMsg)
  else if (splitOnP (fun c => c == '-') ((argv.getD 1 "").data)).length ≠ 3 then
    .error (.valueError dateFormatMsg)
  else
    match pyIntParse (argv.getD 2 "") with
    | none => .error (.valueError (intLiteralMsg (argv.getD 2 "")))
    | some n =>
        if 0 ≤ n ∧ n < 8 then .ok () else .error (.valueError deltaRangeMsg)

/-- Source `main` (src/main.py) up to the transformed value: validates
the command line, then pulls (as a function of the two fetch outcomes)
and transforms.  The final file write is an external side effect of the
returned value. -/
def main_model (argc : Nat) (argv : List String) (sbFetch trFetch : FetchOutcome) :
    Except PyErr (List Dict) :=
  match check_command_line_arguments argc argv with
  | .error e => .error e
  | .ok _ =>
      match pull_json_data sbFetch trFetch with
      | .error e => .error e
      | .ok (sb, tr) => transform_json_data sb tr

/-! ## Derived notions and sample data used by the theorems below -/

/-- The nine non-rank keys an event record carries when it reaches the
reordering step: its original filtered fields plus the split date and
time. -/
def eventBaseKeys : List String :=
  ["event_id", "event_date", "event_time", "away_team_id", "away_nick_name",
   "away_city", "home_team_id", "home_nick_name", "home_city"]

/-- The seven keys an event record carries before the date split. -/
def eventInputKeys : List String :=
  ["event_id", "away_team_id", "away_nick_name", "away_city",
   "home_team_id", "home_nick_name", "home_city"]

/-- The four rank fields of a record, read together. -/
def rankFields (r : Dict) :
    Option Value × Option Value × Option Value × Option Value :=
  (dlookup r "away_rank", dlookup r "away_rank_points",
   dlookup r "home_rank", dlookup r "home_rank_points")

/-- Sample filtered event record as produced by the scoreboard client. -/
def sampleEvent : Dict :=
  [("event_id", .s "E1"), ("event_date", .s "2020-01-12 18:30"),
   ("away_team_id", .s "T1"), ("away_nick_name", .s "Jets"), ("away_city", .s "NY"),
   ("home_team_id", .s "T2"), ("home_nick_name", .s "Bills"), ("home_city", .s "Buf")]

/-- Second sample event whose team ids match no ranking record. -/
def sampleEvent2 : Dict :=
  [("event_id", .s "E2"), ("event_date", .s "2020-01-13 12:00"),
   ("away_team_id", .s "X1"), ("away_nick_name", .s "A"), ("away_city", .s "AC"),
   ("home_team_id", .s "X2"), ("home_nick_name", .s "B"), ("home_city", .s "BC")]

/-- Sample filtered ranking records (the example of the specification). -/
def sampleRankings : List Dict :=
  [[("team_id", .s "T1"), ("rank", .n 5), ("adjusted_points", .n 10)],
   [("team_id", .s "T2"), ("rank", .n 2), ("adjusted_points", .n 20)]]

/-- Transformed output of `sampleEvent` against `sampleRankings`. -/
def sampleOutput : Dict :=
  [("event_id", .s "E1"), ("event_date", .s "12-01-2020"),
   ("event_time", .s "18:30"), ("away_team_id", .s "T1"),
   ("away_nick_name", .s "Jets"), ("away_city", .s "NY"),
   ("away_rank", .n 5), ("away_rank_points", .n 10),
   ("home_team_id", .s "T2"), ("home_nick_name", .s "Bills"),
   ("home_city", .s "Buf"), ("home_rank", .n 2), ("home_rank_points", .n 20)]

/-! ## Lemmas on dict operations -/

/-- Lookup of the key just written by `dictUpdate` yields the new value. -/
theorem dlookup_dictUpdate_self (d : Dict) (k : String) (v : Value) :
    dlookup (dictUpdate d k v) k = some v := by
  induction d with
  | nil => simp [dictUpdate, dlookup]
  | cons kv rest ih =>
      obtain ⟨k0, v0⟩ := kv
      by_cases h : k0 = k
      · simp [dictUpdate, h, dlookup]
      · simp [dictUpdate, h, dlookup, ih]

/-- Lookup of any other key is unchanged by `dictUpdate`. -/
theorem dlookup_dictUpdate_other (d : Dict) (k key : String) (v : Value)
    (hne : k ≠ key) : dlookup (dictUpdate d k v) key = dlookup d key := by
  induction d with
  | nil => simp [dictUpdate, dlookup, hne]
  | cons kv rest ih =>
      obtain ⟨k0, v0⟩ := kv
      by_cases h : k0 = k
      · subst h
        simp [dictUpdate, dlookup, hne]
      · simp [dictUpdate, h, dlookup, ih]

/-! ## Lemmas on digits, padding and splitting -/

theorem digitChar_isDigit (n : Nat) (h : n < 10) : isDigitChar (digitChar n) = true := by
  interval_cases n <;> decide

theorem digitVal_digitChar (n : Nat) (h : n < 10) : digitVal (digitChar n) = n := by
  interval_cases n <;> decide

theorem pad2_digits (n : Nat) : (pad2 n).all isDigitChar = true := by
  simp [pad2, digitChar_isDigit _ (Nat.mod_lt _ (by norm_num))]

theorem pad4_digits (n : Nat) : (pad4 n).all isDigitChar = true := by
  simp [pad4, digitChar_isDigit _ (Nat.mod_lt _ (by norm_num))]

theorem natOfDigits_pad2 (n : Nat) (h : n < 100) : natOfDigits (pad2 n) = n := by
  simp [natOfDigits, pad2, digitVal_digitChar _ (Nat.mod_lt _ (by norm_num))]
  omega

theorem natOfDigits_pad4 (n : Nat) (h : n < 10000) : natOfDigits (pad4 n) = n := by
  simp [natOfDigits, pad4, digitVal_digitChar _ (Nat.mod_lt _ (by norm_num))]
  omega

theorem isDigit_beq_false (c sep : Char) (hsep : isDigitChar sep = false)
    (h : isDigitChar c = true) : (c == sep) = false := by
  cases h2 : c == sep
  · rfl
  · rw [eq_of_beq h2, hsep] at h
    exact absurd h (by simp)

theorem splitOnP_ne_nil (p : Char → Bool) (l : List Char) : splitOnP p l ≠ [] := by
  induction l with
  | nil => simp [splitOnP]
  | cons c cs ih =>
      unfold splitOnP
      cases h : splitOnP p cs with
      | nil => simp
      | cons t ts => cases hp : p c <;> simp

theorem splitOnP_nosep (p : Char → Bool) :
    ∀ l : List Char, (∀ c ∈ l, p c = false) → splitOnP p l = [l]
  | [], _ => rfl
  | c :: cs, h => by
      have ih := splitOnP_nosep p cs (fun x hx => h x (List.mem_cons_of_mem _ hx))
      simp [splitOnP, ih, h c (List.mem_cons_self _ _)]

theorem splitOnP_sep_append (p : Char → Bool) (sep : Char) (hsep : p sep = true) :
    ∀ (l r : List Char), (∀ c ∈ l, p c = false) →
      splitOnP p (l ++ sep :: r) = l :: splitOnP p r
  | [], r, _ => by
      obtain ⟨t, ts, ht⟩ := List.exists_cons_of_ne_nil (splitOnP_ne_nil p r)
      simp [splitOnP, hsep, ht]
  | c :: cs, r, h => by
      have ih := splitOnP_sep_append p sep hsep cs r
        (fun x hx => h x (List.mem_cons_of_mem _ hx))
      simp [splitOnP, ih, h c (List.mem_cons_self _ _)]

theorem natOfDigits_lt (cs : List Char) (h : cs.all isDigitChar = true) :
    natOfDigits cs < 10 ^ cs.length := by
  have key : ∀ (l : List Char) (a : Nat), l.all isDigitChar = true →
      l.foldl (fun a c => a * 10 + digitVal c) a < (a + 1) * 10 ^ l.length := by
    intro l
    induction l with
    | nil => intro a _; simpa using Nat.lt_succ_self a
    | cons c t ih =>
        intro a hall
        rw [List.all_cons, Bool.and_eq_true] at hall
        have hc : digitVal c ≤ 9 := by
          have := hall.1
          simp [isDigitChar] at this
          unfold digitVal
          omega
        have step := ih (a * 10 + digitVal c) hall.2
        calc List.foldl (fun a c => a * 10 + digitVal c) (a * 10 + digitVal c) t
            < (a * 10 + digitVal c + 1) * 10 ^ t.length := step
          _ ≤ ((a + 1) * 10) * 10 ^ t.length :=
              Nat.mul_le_mul_right _ (by omega)
          _ = (a + 1) * 10 ^ (t.length + 1) := by ring
  simpa [natOfDigits] using key cs 0 h

/-! ## Lemmas on the calendar -/

theorem daysInMonth_pos (y m : Nat) : 1 ≤ daysInMonth y m := by
  unfold daysInMonth
  split
  · split <;> omega
  · split <;> omega

theorem succDate_valid (x : Nat × Nat × Nat) (h : validDate x) :
    validDate (succDate x) := by
  obtain ⟨y, m, d⟩ := x
  obtain ⟨h1, h2, h3, h4, h5⟩ := h
  by_cases hd : d < daysInMonth y m
  · have he : succDate (y, m, d) = (y, m, d + 1) := by simp [succDate, hd]
    rw [he]
    exact ⟨h1, h2, h3, by omega, by omega⟩
  · by_cases hm : m < 12
    · have he : succDate (y, m, d) = (y, m + 1, 1) := by simp [succDate, hd, hm]
      rw [he]
      exact ⟨h1, by omega, by omega, by omega, daysInMonth_pos _ _⟩
    · have he : succDate (y, m, d) = (y + 1, 1, 1) := by simp [succDate, hd, hm]
      rw [he]
      exact ⟨by omega, by omega, by omega, by omega, daysInMonth_pos _ _⟩

theorem iterate_succDate_valid (n : Nat) (x : Nat × Nat × Nat) (h : validDate x) :
    validDate (succDate^[n] x) := by
  induction n with
  | zero => exact h
  | succ k ih => rw [Function.iterate_succ_apply']; exact succDate_valid _ ih

/-! ## Round trip: formatting a valid date parses back -/

theorem parseYMDchars_format (y m d : Nat) (hv : validDate (y, m, d))
    (hy : y ≤ 9999) :
    parseYMDchars (pad4 y ++ '-' :: (pad2 m ++ '-' :: pad2 d)) = some (y, m, d) := by
  have hdash : isDigitChar '-' = false := by decide
  have h4 : ∀ c ∈ pad4 y, (fun c => c == '-') c = false := by
    intro c hc
    have : isDigitChar c = true := by
      have := pad4_digits y
      rw [List.all_eq_true] at this
      exact this c hc
    exact isDigit_beq_false c '-' hdash this
  have h2m : ∀ c ∈ pad2 m, (fun c => c == '-') c = false := by
    intro c hc
    have : isDigitChar c = true := by
      have := pad2_digits m
      rw [List.all_eq_true] at this
      exact this c hc
    exact isDigit_beq_false c '-' hdash this
  have h2d : ∀ c ∈ pad2 d, (fun c => c == '-') c = false := by
    intro c hc
    have : isDigitChar c = true := by
      have := pad2_digits d
      rw [List.all_eq_true] at this
      exact this c hc
    exact isDigit_beq_false c '-' hdash this
  have hsplit : splitOnP (fun c => c == '-') (pad4 y ++ '-' :: (pad2 m ++ '-' :: pad2 d))
      = [pad4 y, pad2 m, pad2 d] := by
    rw [splitOnP_sep_append _ '-' (by decide) _ _ h4,
        splitOnP_sep_append _ '-' (by decide) _ _ h2m,
        splitOnP_nosep _ _ h2d]
  have hm100 : m < 100 := by
    obtain ⟨_, _, h3, _, _⟩ := hv
    omega
  have hd100 : d < 100 := by
    obtain ⟨_, _, _, _, h5⟩ := hv
    have : daysInMonth y m ≤ 31 := by
      unfold daysInMonth
      split
      · split <;> omega
      · split <;> omega
    omega
  have g4 : goodDigits (pad4 y) 4 4 = true := by
    have hl : (pad4 y).length = 4 := rfl
    simp [goodDigits, hl, pad4_digits]
  have g2m : goodDigits (pad2 m) 1 2 = true := by
    have hl : (pad2 m).length = 2 := rfl
    simp [goodDigits, hl, pad2_digits]
  have g2d : goodDigits (pad2 d) 1 2 = true := by
    have hl : (pad2 d).length = 2 := rfl
    simp [goodDigits, hl, pad2_digits]
  unfold parseYMDchars
  rw [hsplit]
  show (if (goodDigits (pad4 y) 4 4 && goodDigits (pad2 m) 1 2
          && goodDigits (pad2 d) 1 2) = true then
        if validDate (natOfDigits (pad4 y), natOfDigits (pad2 m), natOfDigits (pad2 d)) then
          some (natOfDigits (pad4 y), natOfDigits (pad2 m), natOfDigits (pad2 d))
        else none
      else none) = some (y, m, d)
  rw [natOfDigits_pad4 y (by omega), natOfDigits_pad2 m hm100,
      natOfDigits_pad2 d hd100, g4, g2m, g2d]
  simp [hv]

/-- Parse success yields a valid date with a four-digit year. -/
theorem parseYMD_some_valid (s : String) (y m d : Nat)
    (h : parseYMD s = some (y, m, d)) : validDate (y, m, d) ∧ y ≤ 9999 := by
  unfold parseYMD parseYMDchars at h
  split at h
  next ys ms ds heq =>
    split at h
    next hgood =>
      split at h
      next hvalid =>
        obtain ⟨hy, hm, hd⟩ : natOfDigits ys = y ∧ natOfDigits ms = m
            ∧ natOfDigits ds = d := by
          injection h with h2
          injection h2 with e1 h3
          injection h3 with e2 e3
          exact ⟨e1, e2, e3⟩
        rw [Bool.and_eq_true, Bool.and_eq_true] at hgood
        obtain ⟨⟨hgy, _⟩, _⟩ := hgood
        unfold goodDigits at hgy
        rw [Bool.and_eq_true, Bool.and_eq_true] at hgy
        have hlen : ys.length = 4 := by
          have := hgy.1.2
          have := hgy.1.1
          simp at *
          omega
        have hbound := natOfDigits_lt ys hgy.2
        rw [hlen] at hbound
        rw [hy, hm, hd] at hvalid
        exact ⟨hvalid, by omega⟩
      next => exact absurd h (by simp)
    next => exact absurd h (by simp)
  next => exact absurd h (by simp)

/-! ## Claim C5: split_datetime -/

/-- Claim C5: for every combined date-time string matching the format
`YYYY-MM-DD HH:MM` (acceptance by the strptime model `parseYMDHM`),
`split_datetime` returns the date re-rendered day-first as `DD-MM-YYYY`
and the time re-rendered as `HH:MM`; in particular
`split_datetime "2020-01-12 18:30" = ("12-01-2020", "18:30")`; and for
every string not matching the format it fails with a FormatError. -/
theorem claim_C5_split_datetime :
    split_datetime "2020-01-12 18:30" = .ok ("12-01-2020", "18:30") ∧
    ∀ s : String,
      (∀ y m d hh mm, parseYMDHM s = some (y, m, d, hh, mm) →
        split_datetime s = .ok (formatDMY y m d, formatHM hh mm)) ∧
      (parseYMDHM s = none → split_datetime s = .error .formatError) := by
  refine ⟨rfl, fun s => ⟨fun y m d hh mm hp => ?_, fun hp => ?_⟩⟩
  · simp [split_datetime, hp]
  · simp [split_datetime, hp]

/-- Witness for claim C5 at a concrete non-padded time string. -/
theorem claim_C5_witness :
    split_datetime "2021-02-03 7:5" = .ok ("03-02-2021", "07:05") :=
  (claim_C5_split_datetime.2 "2021-02-03 7:5").1 2021 2 3 7 5 (by decide)

/-! ## Claim C6: generate_end_date -/

/-- Claim C6 (amended): for every startDate matching the `YYYY-MM-DD`
format (acceptance by the strptime model `parseYMD`) and every delta in
0..7 such that the end date does not pass 9999-12-31, `generate_end_date`
returns the date exactly delta calendar days after startDate (iterated
calendar successor), rendered in the same `YYYY-MM-DD` format — the
result parses back to exactly that date; and for every startDate not
matching the format it fails with a FormatError. -/
theorem claim_C6_generate_end_date (s : String) (delta : Nat) (hdelta : delta ≤ 7) :
    (parseYMD s = none → generate_end_date s delta = .error .formatError) ∧
    (∀ ymd, parseYMD s = some ymd → (succDate^[delta] ymd).1 ≤ 9999 →
      generate_end_date s delta = .ok (formatYMD (succDate^[delta] ymd)) ∧
      parseYMD (formatYMD (succDate^[delta] ymd)) = some (succDate^[delta] ymd)) := by
  constructor
  · intro hp
    simp [generate_end_date, hp]
  · intro ymd hp hbound
    obtain ⟨y, m, d⟩ := ymd
    constructor
    · simp [generate_end_date, hp, hbound]
    · have hvalid := iterate_succDate_valid delta (y, m, d)
        (parseYMD_some_valid s y m d hp).1
      rcases hE : succDate^[delta] (y, m, d) with ⟨ty, tm, td⟩
      rw [hE] at hvalid hbound
      show parseYMDchars (pad4 ty ++ '-' :: (pad2 tm ++ '-' :: pad2 td))
          = some (ty, tm, td)
      exact parseYMDchars_format ty tm td hvalid hbound

/-- Witness for claim C6: a week added to 2020-01-12. -/
theorem claim_C6_witness :
    generate_end_date "2020-01-12" 7 = .ok "2020-01-19" ∧
    parseYMD "2020-01-19" = some (2020, 1, 19) :=
  (claim_C6_generate_end_date "2020-01-12" 7 (by norm_num)).2
    (2020, 1, 12) (by decide) (by decide)

/-- Counterexample for claim C6 as frozen: "9999-12-31" matches the
format and delta 1 lies in 0..7, yet no end date is returned — the
`timedelta` addition overflows past year 9999 (OverflowError), as in
CPython. -/
theorem claim_C6_counterexample :
    parseYMD "9999-12-31" = some (9999, 12, 31) ∧
    generate_end_date "9999-12-31" 1 = .error .overflowError := by
  exact ⟨by decide, rfl⟩

/-! ## Claim C7: filter_dictionary -/

/-- Claim C7: for every mapping and allow-list, `filter_dictionary`
returns a new mapping containing exactly the entries of the input whose
key is in the allow-list, in their original order and with their
original values, and an allow-list key absent from the input is silently
omitted — no entry for it appears and lookups of it return nothing
(the function is total, so no error is ever raised). -/
theorem claim_C7_filter_dictionary (d : Dict) (ks : List String) :
    (∀ k v, (k, v) ∈ filter_dictionary d ks ↔ ((k, v) ∈ d ∧ k ∈ ks)) ∧
    (filter_dictionary d ks).Sublist d ∧
    (∀ k, dlookup d k = none → dlookup (filter_dictionary d ks) k = none) := by
  refine ⟨fun k v => ?_, List.filter_sublist d, fun k hk => ?_⟩
  · simp [filter_dictionary, List.mem_filter]
  · induction d with
    | nil => rfl
    | cons kv rest ih =>
        obtain ⟨k0, v0⟩ := kv
        rw [dlookup] at hk
        by_cases h0 : k0 = k
        · rw [if_pos h0] at hk
          exact absurd hk (by simp)
        · rw [if_neg h0] at hk
          by_cases hc : ks.contains k0
          · show dlookup (List.filter _ ((k0, v0) :: rest)) k = none
            rw [List.filter_cons_of_pos (by simpa using hc)]
            rw [dlookup, if_neg h0]
            exact ih hk
          · show dlookup (List.filter _ ((k0, v0) :: rest)) k = none
            rw [List.filter_cons_of_neg (by simpa using hc)]
            exact ih hk

/-- Witness for claim C7: the concrete example from the specification,
plus a lookup of an allow-list key absent from the record. -/
theorem claim_C7_witness :
    filter_dictionary [("a", .n 1), ("b", .n 2), ("c", .n 3)] ["a", "c"]
      = [("a", .n 1), ("c", .n 3)] ∧
    dlookup (filter_dictionary [("a", .n 1), ("b", .n 2), ("c", .n 3)] ["a", "z"]) "z"
      = none :=
  ⟨rfl, (claim_C7_filter_dictionary [("a", .n 1), ("b", .n 2), ("c", .n 3)]
    ["a", "z"]).2.2 "z" rfl⟩

/-! ## Claim C8: scoreboard extraction -/

/-- Claim C8: the scoreboard extraction contributes zero event records
for a falsy date bucket and for a bucket whose game list is empty, and
for a non-empty bucket it emits, per game entry, the field-filtered
entry with the entry identifier attached as `event_id`; in total the
output has one record per game entry of the truthy buckets. -/
theorem claim_C8_extract_scoreboard (f : List String) :
    (∀ (day : String) (rest : List (String × ScoreboardBucket)),
      extract_scoreboard_fields_of_interest ((day, none) :: rest) f
        = extract_scoreboard_fields_of_interest rest f) ∧
    (∀ (day : String) (rest : List (String × ScoreboardBucket)),
      extract_scoreboard_fields_of_interest ((day, some []) :: rest) f
        = extract_scoreboard_fields_of_interest rest f) ∧
    (∀ (day : String) (games : List (String × Dict))
        (rest : List (String × ScoreboardBucket)),
      extract_scoreboard_fields_of_interest ((day, some games) :: rest) f
        = games.map (fun g =>
            dictUpdate (filter_dictionary g.2 f) "event_id" (.s g.1))
          ++ extract_scoreboard_fields_of_interest rest f) ∧
    (∀ sb : List (String × ScoreboardBucket),
      (extract_scoreboard_fields_of_interest sb f).length
        = (sb.map (fun b => match b.2 with
            | none => 0
            | some games => games.length)).sum) := by
  refine ⟨fun day rest => rfl, fun day rest => ?_, fun day games rest => rfl, ?_⟩
  · simp [extract_scoreboard_fields_of_interest]
  · intro sb
    induction sb with
    | nil => rfl
    | cons b rest ih =>
        obtain ⟨day, bucket⟩ := b
        cases bucket with
        | none => simpa [extract_scoreboard_fields_of_interest] using ih
        | some games =>
            simp [extract_scoreboard_fields_of_interest, ih]

/-! ## Claim C4: pull_json_data finally clause -/

/-- Claim C4: whenever the scoreboard fetch leaves the `scoreboard_data`
local falsy — it returned an empty list, or raised a ValueError,
TypeError or SystemExit so that the local kept its `None` initial value —
`pull_json_data` raises the "No scoreboard data was returned" ValueError
from the finally clause, regardless of the rankings fetch outcome; in
the raising cases this replaces (masks) the original exception. -/
theorem claim_C4_pull_json_data (sbFetch trFetch : FetchOutcome)
    (h : scoreboardFalsy sbFetch = true) :
    pull_json_data sbFetch trFetch = .error (.valueError noDataMsg) := by
  simp [pull_json_data, h]

/-- Witness for claim C4: a scoreboard fetch that raised a ValueError is
masked by the finally-clause error. -/
theorem claim_C4_witness :
    pull_json_data (.valueErr "time data x does not match format")
      (.ok [[("team_id", Value.s "T1")]])
      = .error (.valueError noDataMsg) :=
  claim_C4_pull_json_data _ _ rfl

/-! ## Claim C10: command-line delta validation -/

/-- Claim C10 (amended): for every three-element argument vector whose
date argument splits into three hyphen-separated parts (so the date
check passes) and whose delta argument is not an integer literal
accepted by Python `int()`, `check_command_line_arguments` raises the
ValueError of the integer conversion itself — not the 0..7 range
message — and the whole pipeline fails with that error before any fetch
outcome is consulted. -/
theorem claim_C10_check_delta (a0 a1 a2 : String)
    (hdate : (splitOnP (fun c => c == '-') a1.data).length = 3)
    (hint : pyIntParse a2 = none) :
    check_command_line_arguments 3 [a0, a1, a2]
      = .error (.valueError (intLiteralMsg a2)) ∧
    ∀ sbFetch trFetch, main_model 3 [a0, a1, a2] sbFetch trFetch
      = .error (.valueError (intLiteralMsg a2)) := by
  have hc : check_command_line_arguments 3 [a0, a1, a2]
      = .error (.valueError (intLiteralMsg a2)) := by
    unfold check_command_line_arguments
    simp [List.getD, hdate, hint]
  exact ⟨hc, fun sbFetch trFetch => by simp [main_model, hc]⟩

/-- Witness for claim C10: a well-formed date with delta "abc". -/
theorem claim_C10_witness :
    check_command_line_arguments 3 ["main.py", "2020-01-12", "abc"]
      = .error (.valueError (intLiteralMsg "abc")) ∧
    main_model 3 ["main.py", "2020-01-12", "abc"] (.ok []) (.ok [])
      = .error (.valueError (intLiteralMsg "abc")) := by
  have h := claim_C10_check_delta "main.py" "2020-01-12" "abc" (by decide) (by decide)
  exact ⟨h.1, h.2 (.ok []) (.ok [])⟩

/-- Counterexample for claim C10 as frozen: with a date argument that is
not three hyphen-separated parts, a non-integer delta is never reached —
the error raised is the date-format ValueError of the second check, not
one from the integer conversion. -/
theorem claim_C10_counterexample :
    check_command_line_arguments 3 ["main.py", "baddate", "abc"]
      = .error (.valueError dateFormatMsg) ∧
    PyErr.valueError dateFormatMsg ≠ PyErr.valueError (intLiteralMsg "abc") :=
  ⟨rfl, by decide⟩

/-! ## Claim C9: add_date_and_time -/

/-- Success of `add_date_and_time` splits every record in place. -/
theorem add_date_ok_index :
    ∀ (rs out : List Dict), add_date_and_time rs = .ok out →
      out.length = rs.length ∧
      ∀ (i : Nat) (r : Dict), rs[i]? = some r → out[i]? = (splitRecord r).toOption
  | [], out, h => by
      injection h with h2
      subst h2
      exact ⟨rfl, fun i r hi => by simp at hi⟩
  | r :: rs, out, h => by
      unfold add_date_and_time at h
      cases hs : splitRecord r with
      | error e => rw [hs] at h; exact absurd h (by simp)
      | ok r2 =>
          rw [hs] at h
          cases ht : add_date_and_time rs with
          | error e => rw [ht] at h; exact absurd h (by simp)
          | ok rest =>
              rw [ht] at h
              injection h with h2
              subst h2
              obtain ⟨hlen, hidx⟩ := add_date_ok_index rs rest ht
              refine ⟨by simp [hlen], fun i q hi => ?_⟩
              cases i with
              | zero =>
                  simp at hi
                  subst hi
                  simp [hs, Except.toOption]
              | succ j =>
                  simp at hi ⊢
                  exact hidx j q hi

/-- A record whose `event_date` key is missing makes the loop raise the
descriptive KeyError, provided the earlier records split cleanly. -/
theorem add_date_missing :
    ∀ (pre : List Dict) (r : Dict) (post : List Dict),
      (∀ p ∈ pre, ∃ q, splitRecord p = .ok q) →
      dlookup r "event_date" = none →
      add_date_and_time (pre ++ r :: post)
        = .error (.keyError missingEventDateMsg)
  | [], r, post, _, hmiss => by
      simp [add_date_and_time, splitRecord, hmiss]
  | p :: ps, r, post, hpre, hmiss => by
      obtain ⟨q, hq⟩ := hpre p (List.mem_cons_self _ _)
      have ih := add_date_missing ps r post
        (fun x hx => hpre x (List.mem_cons_of_mem _ hx)) hmiss
      simp [add_date_and_time, hq, ih]

/-- Claim C9 (amended): on success, the date-time splitting step has
rewritten every record by splitting its `event_date` value into the
re-rendered `event_date` and a new `event_time` field (the effect of
`splitRecord`); and whenever a record lacks the `event_date` key while
every earlier record splits cleanly, the run fails with the
MissingFieldError (KeyError) naming the field — an earlier record whose
value does not parse makes the run fail with its FormatError first. -/
theorem claim_C9_add_date_and_time :
    (∀ rs out, add_date_and_time rs = .ok out →
      out.length = rs.length ∧
      ∀ (i : Nat) (r : Dict), rs[i]? = some r → out[i]? = (splitRecord r).toOption) ∧
    (∀ pre r post, (∀ p ∈ pre, ∃ q, splitRecord p = .ok q) →
      dlookup r "event_date" = none →
      add_date_and_time (pre ++ r :: post)
        = .error (.keyError missingEventDateMsg)) :=
  ⟨add_date_ok_index, add_date_missing⟩

/-- Witness for claim C9: a one-record success and, after a clean
record, a record without the field. -/
theorem claim_C9_witness :
    add_date_and_time [[("event_date", Value.s "2020-01-12 18:30")],
        [("event_id", Value.s "E1")]]
      = .error (.keyError missingEventDateMsg) ∧
    add_date_and_time [[("event_date", Value.s "2020-01-12 18:30")]]
      = .ok [[("event_date", Value.s "12-01-2020"), ("event_time", Value.s "18:30")]] := by
  constructor
  · exact claim_C9_add_date_and_time.2 [[("event_date", Value.s "2020-01-12 18:30")]]
      [("event_id", Value.s "E1")] []
      (by
        intro p hp
        simp at hp
        subst hp
        exact ⟨_, rfl⟩)
      rfl
  · rfl

/-- Counterexample for claim C9 as frozen: the second record lacks the
`event_date` key, yet the run fails with the strptime FormatError of the
first record, not with a MissingFieldError. -/
theorem claim_C9_counterexample :
    add_date_and_time [[("event_date", Value.s "oops")], []]
      = .error .formatError ∧
    PyErr.formatError ≠ PyErr.keyError missingEventDateMsg :=
  ⟨rfl, by decide⟩

/-! ## Lemmas on the reordering comprehension -/

theorem buildOrdered_keys (e : Dict) :
    ∀ (ks : List String) (r : Dict), buildOrdered e ks = .ok r →
      r.map Prod.fst = ks
  | [], r, h => by
      simp [buildOrdered] at h
      subst h
      rfl
  | k :: ks, r, h => by
      unfold buildOrdered at h
      cases hv : dlookup e k with
      | none => rw [hv] at h; exact absurd h (by simp)
      | some v =>
          rw [hv] at h
          cases hb : buildOrdered e ks with
          | error err => rw [hb] at h; exact absurd h (by simp)
          | ok rest =>
              rw [hb] at h
              injection h with h2
              subst h2
              simp [buildOrdered_keys e ks rest hb]

theorem buildOrdered_lookup (e : Dict) :
    ∀ (ks : List String) (r : Dict), buildOrdered e ks = .ok r →
      ∀ k, k ∈ ks → dlookup r k = dlookup e k
  | [], _, _, k, hk => absurd hk (by simp)
  | k0 :: ks, r, h, k, hk => by
      unfold buildOrdered at h
      cases hv : dlookup e k0 with
      | none => rw [hv] at h; exact absurd h (by simp)
      | some v =>
          rw [hv] at h
          cases hb : buildOrdered e ks with
          | error err => rw [hb] at h; exact absurd h (by simp)
          | ok rest =>
              rw [hb] at h
              injection h with h2
              subst h2
              by_cases hkk : k0 = k
              · subst hkk
                rw [dlookup, if_pos rfl, hv]
              · rw [dlookup, if_neg hkk]
                have hmem : k ∈ ks := by
                  rcases List.mem_cons.mp hk with h1 | h1
                  · exact absurd h1.symm hkk
                  · exact h1
                exact buildOrdered_lookup e ks rest hb k hmem

theorem buildOrdered_ok (e : Dict) :
    ∀ (ks : List String), (∀ k ∈ ks, (dlookup e k).isSome) →
      ∃ r, buildOrdered e ks = .ok r
  | [], _ => ⟨[], rfl⟩
  | k :: ks, h => by
      obtain ⟨v, hv⟩ := Option.isSome_iff_exists.mp (h k (List.mem_cons_self _ _))
      obtain ⟨rest, hrest⟩ := buildOrdered_ok e ks
        (fun x hx => h x (List.mem_cons_of_mem _ hx))
      exact ⟨(k, v) :: rest, by simp [buildOrdered, hv, hrest]⟩

/-! ## Lemmas on the ranking scan -/

theorem scanRankings_ok_ids (a hm : Value) :
    ∀ (tr : List Dict) (st st2 : RankState),
      scanRankings a hm tr st = .ok st2 →
      ∀ t ∈ tr, (dlookup t "team_id").isSome
  | [], _, _, _ => fun t ht => absurd ht (by simp)
  | t0 :: tr, st, st2, h => by
      intro t ht
      unfold scanRankings at h
      cases htid : dlookup t0 "team_id" with
      | none => simp only [htid] at h; exact absurd h (by simp)
      | some tid =>
          simp only [htid] at h
          rcases List.mem_cons.mp ht with rfl | hmem
          · simp [htid]
          · by_cases hta : tid = a
            · rw [if_pos hta] at h
              cases hr : dlookup t0 "rank" with
              | none => simp only [hr] at h; exact absurd h (by simp)
              | some r =>
                  simp only [hr] at h
                  cases hp : dlookup t0 "adjusted_points" with
                  | none => simp only [hp] at h; exact absurd h (by simp)
                  | some p =>
                      simp only [hp] at h
                      exact scanRankings_ok_ids a hm tr _ _ h t hmem
            · rw [if_neg hta] at h
              by_cases hth : tid = hm
              · rw [if_pos hth] at h
                cases hr : dlookup t0 "rank" with
                | none => simp only [hr] at h; exact absurd h (by simp)
                | some r =>
                    simp only [hr] at h
                    cases hp : dlookup t0 "adjusted_points" with
                    | none => simp only [hp] at h; exact absurd h (by simp)
                    | some p =>
                        simp only [hp] at h
                        exact scanRankings_ok_ids a hm tr _ _ h t hmem
              · rw [if_neg hth] at h
                exact scanRankings_ok_ids a hm tr _ _ h t hmem

theorem scanRankings_nomatch (a hm : Value) :
    ∀ (tr : List Dict) (st : RankState),
      tr.filter (teamMatches a) = [] → tr.filter (teamMatches hm) = [] →
      (∀ t ∈ tr, (dlookup t "team_id").isSome) →
      scanRankings a hm tr st = .ok st
  | [], _, _, _, _ => rfl
  | t0 :: tr, st, hfa, hfh, hids => by
      obtain ⟨tid, htid⟩ :=
        Option.isSome_iff_exists.mp (hids t0 (List.mem_cons_self _ _))
      have hma : teamMatches a t0 = false := by
        cases hx : teamMatches a t0
        · rfl
        · rw [List.filter_cons_of_pos hx] at hfa
          exact absurd hfa (by simp)
      have hmh : teamMatches hm t0 = false := by
        cases hx : teamMatches hm t0
        · rfl
        · rw [List.filter_cons_of_pos hx] at hfh
          exact absurd hfh (by simp)
      rw [List.filter_cons_of_neg (by simp [hma])] at hfa
      rw [List.filter_cons_of_neg (by simp [hmh])] at hfh
      have hna : ¬ tid = a := fun hEq => by
        rw [teamMatches, htid, hEq] at hma
        simp at hma
      have hnh : ¬ tid = hm := fun hEq => by
        rw [teamMatches, htid, hEq] at hmh
        simp at hmh
      unfold scanRankings
      simp only [htid]
      rw [if_neg hna, if_neg hnh]
      exact scanRankings_nomatch a hm tr st hfa hfh
        (fun t ht => hids t (List.mem_cons_of_mem _ ht))

theorem scanRankings_away_only (a hm : Value) :
    ∀ (tr : List Dict) (st : RankState) (ta : Dict) (ra pa : Value),
      tr.filter (teamMatches a) = [ta] →
      dlookup ta "rank" = some ra → dlookup ta "adjusted_points" = some pa →
      tr.filter (teamMatches hm) = [] →
      (∀ t ∈ tr, (dlookup t "team_id").isSome) →
      scanRankings a hm tr st = .ok ⟨some ra, some pa, st.homeRank, st.homePoints⟩
  | [], _, _, _, _, hfa, _, _, _, _ => absurd hfa (by simp)
  | t0 :: tr, st, ta, ra, pa, hfa, hra, hpa, hfh, hids => by
      obtain ⟨tid, htid⟩ :=
        Option.isSome_iff_exists.mp (hids t0 (List.mem_cons_self _ _))
      have hmh : teamMatches hm t0 = false := by
        cases hx : teamMatches hm t0
        · rfl
        · rw [List.filter_cons_of_pos hx] at hfh
          exact absurd hfh (by simp)
      rw [List.filter_cons_of_neg (by simp [hmh])] at hfh
      have hnh : ¬ tid = hm := fun hEq => by
        rw [teamMatches, htid, hEq] at hmh
        simp at hmh
      have hidsr : ∀ t ∈ tr, (dlookup t "team_id").isSome :=
        fun t ht => hids t (List.mem_cons_of_mem _ ht)
      cases hx : teamMatches a t0 with
      | true =>
          rw [List.filter_cons_of_pos hx] at hfa
          injection hfa with hta hfrest
          subst hta
          have hEq : tid = a := by
            rw [teamMatches, htid] at hx
            simpa using hx
          unfold scanRankings
          simp only [htid]
          rw [if_pos hEq]
          simp only [hra, hpa]
          exact scanRankings_nomatch a hm tr _ hfrest hfh hidsr
      | false =>
          rw [List.filter_cons_of_neg (by simp [hx])] at hfa
          have hna : ¬ tid = a := fun hEq => by
            rw [teamMatches, htid, hEq] at hx
            simp at hx
          unfold scanRankings
          simp only [htid]
          rw [if_neg hna, if_neg hnh]
          exact scanRankings_away_only a hm tr st ta ra pa hfa hra hpa hfh hidsr

theorem scanRankings_home_only (a hm : Value) :
    ∀ (tr : List Dict) (st : RankState) (tb : Dict) (rb pb : Value),
      tr.filter (teamMatches a) = [] →
      tr.filter (teamMatches hm) = [tb] →
      dlookup tb "rank" = some rb → dlookup tb "adjusted_points" = some pb →
      (∀ t ∈ tr, (dlookup t "team_id").isSome) →
      scanRankings a hm tr st = .ok ⟨st.awayRank, st.awayPoints, some rb, some pb⟩
  | [], _, _, _, _, _, hfh, _, _, _ => absurd hfh (by simp)
  | t0 :: tr, st, tb, rb, pb, hfa, hfh, hrb, hpb, hids => by
      obtain ⟨tid, htid⟩ :=
        Option.isSome_iff_exists.mp (hids t0 (List.mem_cons_self _ _))
      have hma : teamMatches a t0 = false := by
        cases hx : teamMatches a t0
        · rfl
        · rw [List.filter_cons_of_pos hx] at hfa
          exact absurd hfa (by simp)
      rw [List.filter_cons_of_neg (by simp [hma])] at hfa
      have hna : ¬ tid = a := fun hEq => by
        rw [teamMatches, htid, hEq] at hma
        simp at hma
      have hidsr : ∀ t ∈ tr, (dlookup t "team_id").isSome :=
        fun t ht => hids t (List.mem_cons_of_mem _ ht)
      cases hx : teamMatches hm t0 with
      | true =>
          rw [List.filter_cons_of_pos hx] at hfh
          injection hfh with htb hfrest
          subst htb
          have hEq : tid = hm := by
            rw [teamMatches, htid] at hx
            simpa using hx
          unfold scanRankings
          simp only [htid]
          rw [if_neg hna, if_pos hEq]
          simp only [hrb, hpb]
          exact scanRankings_nomatch a hm tr _ hfa hfrest hidsr
      | false =>
          rw [List.filter_cons_of_neg (by simp [hx])] at hfh
          have hnh : ¬ tid = hm := fun hEq => by
            rw [teamMatches, htid, hEq] at hx
            simp at hx
          unfold scanRankings
          simp only [htid]
          rw [if_neg hna, if_neg hnh]
          exact scanRankings_home_only a hm tr st tb rb pb hfa hfh hrb hpb hidsr

theorem scanRankings_matched (a hm : Value) (hne : a ≠ hm) :
    ∀ (tr : List Dict) (st : RankState) (ta tb : Dict) (ra pa rb pb : Value),
      tr.filter (teamMatches a) = [ta] →
      dlookup ta "rank" = some ra → dlookup ta "adjusted_points" = some pa →
      tr.filter (teamMatches hm) = [tb] →
      dlookup tb "rank" = some rb → dlookup tb "adjusted_points" = some pb →
      (∀ t ∈ tr, (dlookup t "team_id").isSome) →
      scanRankings a hm tr st = .ok ⟨some ra, some pa, some rb, some pb⟩
  | [], _, _, _, _, _, _, _, hfa, _, _, _, _, _, _ => absurd hfa (by simp)
  | t0 :: tr, st, ta, tb, ra, pa, rb, pb, hfa, hra, hpa, hfh, hrb, hpb, hids => by
      obtain ⟨tid, htid⟩ :=
        Option.isSome_iff_exists.mp (hids t0 (List.mem_cons_self _ _))
      have hidsr : ∀ t ∈ tr, (dlookup t "team_id").isSome :=
        fun t ht => hids t (List.mem_cons_of_mem _ ht)
      cases hxa : teamMatches a t0 with
      | true =>
          rw [List.filter_cons_of_pos hxa] at hfa
          injection hfa with hta hfrest
          subst hta
          have hEq : tid = a := by
            rw [teamMatches, htid] at hxa
            simpa using hxa
          have hmh : teamMatches hm t0 = false := by
            rw [teamMatches, htid, hEq]
            simpa using hne
          rw [List.filter_cons_of_neg (by simp [hmh])] at hfh
          unfold scanRankings
          simp only [htid]
          rw [if_pos hEq]
          simp only [hra, hpa]
          exact scanRankings_home_only a hm tr _ tb rb pb hfrest hfh hrb hpb hidsr
      | false =>
          rw [List.filter_cons_of_neg (by simp [hxa])] at hfa
          have hna : ¬ tid = a := fun hEq => by
            rw [teamMatches, htid, hEq] at hxa
            simp at hxa
          cases hxh : teamMatches hm t0 with
          | true =>
              rw [List.filter_cons_of_pos hxh] at hfh
              injection hfh with htb hfrest
              subst htb
              have hEq : tid = hm := by
                rw [teamMatches, htid] at hxh
                simpa using hxh
              unfold scanRankings
              simp only [htid]
              rw [if_neg hna, if_pos hEq]
              simp only [hrb, hpb]
              exact scanRankings_away_only a hm tr _ ta ra pa hfa hra hpa hfrest hidsr
          | false =>
              rw [List.filter_cons_of_neg (by simp [hxh])] at hfh
              have hnh : ¬ tid = hm := fun hEq => by
                rw [teamMatches, htid, hEq] at hxh
                simp at hxh
              unfold scanRankings
              simp only [htid]
              rw [if_neg hna, if_neg hnh]
              exact scanRankings_matched a hm hne tr st ta tb ra pa rb pb
                hfa hra hpa hfh hrb hpb hidsr

/-! ## Lemmas on the rank-field updates and the event step -/

theorem dlookup_rankUpdate (e : Dict) (ar ap hr hpv : Value) (k : String) :
    dlookup (dictUpdate (dictUpdate (dictUpdate (dictUpdate e "away_rank" ar)
      "away_rank_points" ap) "home_rank" hr) "home_rank_points" hpv) k
    = if k = "home_rank_points" then some hpv
      else if k = "home_rank" then some hr
      else if k = "away_rank_points" then some ap
      else if k = "away_rank" then some ar
      else dlookup e k := by
  by_cases h1 : k = "home_rank_points"
  · subst h1
    simp [dlookup_dictUpdate_self]
  · rw [dlookup_dictUpdate_other _ _ _ _ (Ne.symm h1)]
    by_cases h2 : k = "home_rank"
    · subst h2
      simp [dlookup_dictUpdate_self]
    · rw [dlookup_dictUpdate_other _ _ _ _ (Ne.symm h2)]
      by_cases h3 : k = "away_rank_points"
      · subst h3
        simp [dlookup_dictUpdate_self]
      · rw [dlookup_dictUpdate_other _ _ _ _ (Ne.symm h3)]
        by_cases h4 : k = "away_rank"
        · subst h4
          simp [dlookup_dictUpdate_self]
        · rw [dlookup_dictUpdate_other _ _ _ _ (Ne.symm h4)]
          simp [h1, h2, h3, h4]

theorem event13_present (e : Dict)
    (hbase : ∀ k ∈ eventBaseKeys, (dlookup e k).isSome)
    (ar ap hr hpv : Value) :
    ∀ k ∈ desired_key_order,
      (dlookup (dictUpdate (dictUpdate (dictUpdate (dictUpdate e
        "away_rank" ar) "away_rank_points" ap) "home_rank" hr)
        "home_rank_points" hpv) k).isSome := by
  intro k hk
  rw [dlookup_rankUpdate]
  simp [desired_key_order] at hk
  rcases hk with rfl|rfl|rfl|rfl|rfl|rfl|rfl|rfl|rfl|rfl|rfl|rfl|rfl <;>
    simp <;> exact hbase _ (by simp [eventBaseKeys])

theorem processEvent_ok_inv (tr : List Dict) (e : Dict) (st : RankState)
    (rec : Dict) (stOut : RankState)
    (h : processEvent tr e st = .ok (rec, stOut)) :
    ∃ a hm st2 ar ap hr hpv,
      dlookup e "away_team_id" = some a ∧
      dlookup e "home_team_id" = some hm ∧
      scanRankings a hm tr st = .ok st2 ∧ stOut = st2 ∧
      st2.awayRank = some ar ∧ st2.awayPoints = some ap ∧
      st2.homeRank = some hr ∧ st2.homePoints = some hpv ∧
      buildOrdered (dictUpdate (dictUpdate (dictUpdate (dictUpdate e
          "away_rank" ar) "away_rank_points" ap) "home_rank" hr)
          "home_rank_points" hpv) desired_key_order = .ok rec := by
  unfold processEvent at h
  cases ha : dlookup e "away_team_id" with
  | none => simp only [ha] at h; exact absurd h (by simp)
  | some a =>
      simp only [ha] at h
      cases hh : dlookup e "home_team_id" with
      | none => simp only [hh] at h; exact absurd h (by simp)
      | some hm =>
          simp only [hh] at h
          cases hscan : scanRankings a hm tr st with
          | error err => simp only [hscan] at h; exact absurd h (by simp)
          | ok st2 =>
              simp only [hscan] at h
              cases har : st2.awayRank with
              | none =>
                  cases hap : st2.awayPoints with
                  | none => simp only [har, hap] at h; exact absurd h (by simp)
                  | some ap => simp only [har, hap] at h; exact absurd h (by simp)
              | some ar =>
                  cases hap : st2.awayPoints with
                  | none => simp only [har, hap] at h; exact absurd h (by simp)
                  | some ap =>
                      simp only [har, hap] at h
                      cases hhr : st2.homeRank with
                      | none =>
                          cases hhp : st2.homePoints with
                          | none => simp only [hhr, hhp] at h; exact absurd h (by simp)
                          | some hpv => simp only [hhr, hhp] at h; exact absurd h (by simp)
                      | some hr =>
                          cases hhp : st2.homePoints with
                          | none => simp only [hhr, hhp] at h; exact absurd h (by simp)
                          | some hpv =>
                              simp only [hhr, hhp] at h
                              cases hb : buildOrdered (dictUpdate (dictUpdate
                                  (dictUpdate (dictUpdate e "away_rank" ar)
                                  "away_rank_points" ap) "home_rank" hr)
                                  "home_rank_points" hpv) desired_key_order with
                              | error err =>
                                  simp only [hb] at h
                                  exact absurd h (by simp)
                              | ok rec2 =>
                                  simp only [hb] at h
                                  injection h with h2
                                  injection h2 with hrec hst
                                  subst hrec
                                  subst hst
                                  exact ⟨a, hm, st2, ar, ap, hr, hpv, rfl, rfl,
                                    hscan, rfl, har, hap, hhr, hhp, hb⟩

theorem splitRecord_ok_lookup (r r2 : Dict) (h : splitRecord r = .ok r2) :
    (∀ k, k ≠ "event_date" → k ≠ "event_time" → dlookup r2 k = dlookup r k) ∧
    (dlookup r2 "event_date").isSome ∧ (dlookup r2 "event_time").isSome := by
  unfold splitRecord at h
  cases hd : dlookup r "event_date" with
  | none => simp only [hd] at h; exact absurd h (by simp)
  | some v =>
      simp only [hd] at h
      cases v with
      | n k => exact absurd h (by simp)
      | s dt =>
          cases hs : split_datetime dt with
          | error err => simp only [hs] at h; exact absurd h (by simp)
          | ok pair =>
              obtain ⟨dStr, tStr⟩ := pair
              simp only [hs] at h
              injection h with h2
              subst h2
              refine ⟨fun k hk1 hk2 => ?_, ?_, ?_⟩
              · rw [dlookup_dictUpdate_other _ _ _ _ (Ne.symm hk2),
                    dlookup_dictUpdate_other _ _ _ _ (Ne.symm hk1)]
              · rw [dlookup_dictUpdate_other _ _ _ _ (by decide),
                    dlookup_dictUpdate_self]
                simp
              · rw [dlookup_dictUpdate_self]
                simp

theorem splitRecord_ok_of_parse (r : Dict) (s : String)
    (hd : dlookup r "event_date" = some (.s s))
    (hp : (parseYMDHM s).isSome) : ∃ q, splitRecord r = .ok q := by
  obtain ⟨v, hv⟩ := Option.isSome_iff_exists.mp hp
  obtain ⟨y, m, d, hh, mm⟩ := v
  have hsd : split_datetime s = .ok (formatDMY y m d, formatHM hh mm) := by
    simp [split_datetime, hv]
  refine ⟨dictUpdate (dictUpdate r "event_date" (.s (formatDMY y m d)))
    "event_time" (.s (formatHM hh mm)), ?_⟩
  unfold splitRecord
  simp only [hd, hsd]

theorem splitRecord_base_keys (r r2 : Dict) (h : splitRecord r = .ok r2)
    (h7 : ∀ k ∈ eventInputKeys, (dlookup r k).isSome) :
    ∀ k ∈ eventBaseKeys, (dlookup r2 k).isSome := by
  obtain ⟨hpres, hdt, htm⟩ := splitRecord_ok_lookup r r2 h
  intro k hk
  simp [eventBaseKeys] at hk
  rcases hk with rfl|rfl|rfl|rfl|rfl|rfl|rfl|rfl|rfl <;>
    first
    | exact hdt
    | exact htm
    | (rw [hpres _ (by decide) (by decide)]
       exact h7 _ (by simp [eventInputKeys]))

theorem add_date_ok_of_parse :
    ∀ rs : List Dict,
      (∀ r ∈ rs, ∃ s2, dlookup r "event_date" = some (.s s2)
        ∧ (parseYMDHM s2).isSome) →
      ∃ out, add_date_and_time rs = .ok out
  | [], _ => ⟨[], rfl⟩
  | r :: rs, h => by
      obtain ⟨s2, hd, hp⟩ := h r (List.mem_cons_self _ _)
      obtain ⟨q, hq⟩ := splitRecord_ok_of_parse r s2 hd hp
      obtain ⟨out, hout⟩ := add_date_ok_of_parse rs
        (fun x hx => h x (List.mem_cons_of_mem _ hx))
      exact ⟨q :: out, by simp [add_date_and_time, hq, hout]⟩

theorem processEvent_matched (tr : List Dict) (e : Dict) (st : RankState)
    (a hm : Value) (ta tb : Dict) (ra pa rb pb : Value)
    (hne : a ≠ hm)
    (ha : dlookup e "away_team_id" = some a)
    (hh : dlookup e "home_team_id" = some hm)
    (hfa : tr.filter (teamMatches a) = [ta])
    (hra : dlookup ta "rank" = some ra)
    (hpa : dlookup ta "adjusted_points" = some pa)
    (hfh : tr.filter (teamMatches hm) = [tb])
    (hrb : dlookup tb "rank" = some rb)
    (hpb : dlookup tb "adjusted_points" = some pb)
    (hids : ∀ t ∈ tr, (dlookup t "team_id").isSome)
    (hbase : ∀ k ∈ eventBaseKeys, (dlookup e k).isSome) :
    ∃ rec, processEvent tr e st = .ok (rec, ⟨some ra, some pa, some rb, some pb⟩) ∧
      rankFields rec = (some ra, some pa, some rb, some pb) ∧
      rec.map Prod.fst = desired_key_order := by
  have hscan := scanRankings_matched a hm hne tr st ta tb ra pa rb pb
    hfa hra hpa hfh hrb hpb hids
  obtain ⟨rec, hrec⟩ := buildOrdered_ok
    (dictUpdate (dictUpdate (dictUpdate (dictUpdate e "away_rank" ra)
      "away_rank_points" pa) "home_rank" rb) "home_rank_points" pb)
    desired_key_order (event13_present e hbase ra pa rb pb)
  refine ⟨rec, ?_, ?_, buildOrdered_keys _ _ _ hrec⟩
  · unfold processEvent
    simp only [ha, hh, hscan, hrec]
  · have l1 : dlookup rec "away_rank" = some ra := by
      rw [buildOrdered_lookup _ _ _ hrec "away_rank" (by simp [desired_key_order]),
        dlookup_rankUpdate]
      simp
    have l2 : dlookup rec "away_rank_points" = some pa := by
      rw [buildOrdered_lookup _ _ _ hrec "away_rank_points"
        (by simp [desired_key_order]), dlookup_rankUpdate]
      simp
    have l3 : dlookup rec "home_rank" = some rb := by
      rw [buildOrdered_lookup _ _ _ hrec "home_rank" (by simp [desired_key_order]),
        dlookup_rankUpdate]
      simp
    have l4 : dlookup rec "home_rank_points" = some pb := by
      rw [buildOrdered_lookup _ _ _ hrec "home_rank_points"
        (by simp [desired_key_order]), dlookup_rankUpdate]
      simp
    simp [rankFields, l1, l2, l3, l4]

theorem processEvent_carry (tr : List Dict) (e : Dict)
    (w x yv z : Value) (a hm : Value)
    (ha : dlookup e "away_team_id" = some a)
    (hh : dlookup e "home_team_id" = some hm)
    (hfa : tr.filter (teamMatches a) = [])
    (hfh : tr.filter (teamMatches hm) = [])
    (hids : ∀ t ∈ tr, (dlookup t "team_id").isSome)
    (hbase : ∀ k ∈ eventBaseKeys, (dlookup e k).isSome) :
    ∃ rec, processEvent tr e ⟨some w, some x, some yv, some z⟩
        = .ok (rec, ⟨some w, some x, some yv, some z⟩) ∧
      rankFields rec = (some w, some x, some yv, some z) ∧
      rec.map Prod.fst = desired_key_order := by
  have hscan := scanRankings_nomatch a hm tr
    ⟨some w, some x, some yv, some z⟩ hfa hfh hids
  obtain ⟨rec, hrec⟩ := buildOrdered_ok
    (dictUpdate (dictUpdate (dictUpdate (dictUpdate e "away_rank" w)
      "away_rank_points" x) "home_rank" yv) "home_rank_points" z)
    desired_key_order (event13_present e hbase w x yv z)
  refine ⟨rec, ?_, ?_, buildOrdered_keys _ _ _ hrec⟩
  · unfold processEvent
    simp only [ha, hh, hscan, hrec]
  · have l1 : dlookup rec "away_rank" = some w := by
      rw [buildOrdered_lookup _ _ _ hrec "away_rank" (by simp [desired_key_order]),
        dlookup_rankUpdate]
      simp
    have l2 : dlookup rec "away_rank_points" = some x := by
      rw [buildOrdered_lookup _ _ _ hrec "away_rank_points"
        (by simp [desired_key_order]), dlookup_rankUpdate]
      simp
    have l3 : dlookup rec "home_rank" = some yv := by
      rw [buildOrdered_lookup _ _ _ hrec "home_rank" (by simp [desired_key_order]),
        dlookup_rankUpdate]
      simp
    have l4 : dlookup rec "home_rank_points" = some z := by
      rw [buildOrdered_lookup _ _ _ hrec "home_rank_points"
        (by simp [desired_key_order]), dlookup_rankUpdate]
      simp
    simp [rankFields, l1, l2, l3, l4]

theorem processEvent_unset (tr : List Dict) (e : Dict) (st : RankState)
    (a hm : Value)
    (ha : dlookup e "away_team_id" = some a)
    (hh : dlookup e "home_team_id" = some hm)
    (hfa : tr.filter (teamMatches a) = [])
    (hfh : tr.filter (teamMatches hm) = [])
    (hids : ∀ t ∈ tr, (dlookup t "team_id").isSome)
    (hnone : st.awayRank = none) :
    processEvent tr e st = .error .nameError := by
  have hscan := scanRankings_nomatch a hm tr st hfa hfh hids
  unfold processEvent
  cases hap : st.awayPoints with
  | none => simp only [ha, hh, hscan, hnone, hap]
  | some x => simp only [ha, hh, hscan, hnone, hap]

/-! ## Lemmas on the event loop -/

theorem transformLoop_ok_inv (tr : List Dict) (e : Dict) (es : List Dict)
    (st : RankState) (out : List Dict)
    (h : transformLoop tr (e :: es) st = .ok out) :
    ∃ rec st2 rest, processEvent tr e st = .ok (rec, st2) ∧
      transformLoop tr es st2 = .ok rest ∧ out = rec :: rest := by
  unfold transformLoop at h
  cases hp : processEvent tr e st with
  | error err => simp only [hp] at h; exact absurd h (by simp)
  | ok p =>
      obtain ⟨rec, st2⟩ := p
      simp only [hp] at h
      cases ht : transformLoop tr es st2 with
      | error err => simp only [ht] at h; exact absurd h (by simp)
      | ok rest =>
          simp only [ht] at h
          injection h with h2
          exact ⟨rec, st2, rest, rfl, ht, h2.symm⟩

theorem transformLoop_keys (tr : List Dict) :
    ∀ (evs : List Dict) (st : RankState) (out : List Dict),
      transformLoop tr evs st = .ok out →
      ∀ rec ∈ out, rec.map Prod.fst = desired_key_order
  | [], st, out, h => by
      simp [transformLoop] at h
      subst h
      intro rec hrec
      exact absurd hrec (by simp)
  | e :: es, st, out, h => by
      obtain ⟨rec0, st2, rest, hp, ht, hout⟩ := transformLoop_ok_inv tr e es st out h
      subst hout
      intro rec hrec
      rcases List.mem_cons.mp hrec with rfl | hmem
      · obtain ⟨a, hm, st3, ar, ap, hr, hpv, _, _, _, _, _, _, _, _, hb⟩ :=
          processEvent_ok_inv tr e st rec st2 hp
        exact buildOrdered_keys _ _ _ hb
      · exact transformLoop_keys tr es st2 rest ht rec hmem

theorem transformLoop_rank_index (tr : List Dict) (ta tb : Dict)
    (a hm ra pa rb pb : Value) (hne : a ≠ hm)
    (hfa : tr.filter (teamMatches a) = [ta])
    (hra : dlookup ta "rank" = some ra)
    (hpa : dlookup ta "adjusted_points" = some pa)
    (hfh : tr.filter (teamMatches hm) = [tb])
    (hrb : dlookup tb "rank" = some rb)
    (hpb : dlookup tb "adjusted_points" = some pb) :
    ∀ (evs : List Dict) (st : RankState) (out : List Dict) (i : Nat) (e : Dict),
      transformLoop tr evs st = .ok out → evs[i]? = some e →
      dlookup e "away_team_id" = some a → dlookup e "home_team_id" = some hm →
      (out[i]?).map rankFields = some (some ra, some pa, some rb, some pb)
  | [], _, _, i, _, _, hi, _, _ => absurd hi (by simp)
  | e0 :: es, st, out, i, e, h, hi, ha, hh => by
      obtain ⟨rec0, st2, rest, hp, ht, hout⟩ := transformLoop_ok_inv tr e0 es st out h
      subst hout
      cases i with
      | zero =>
          simp only [List.getElem?_cons_zero, Option.some.injEq] at hi
          subst hi
          obtain ⟨a2, hm2, st3, ar, ap, hr, hpv, ha2, hh2, hscan, hstEq,
            har, hap, hhr, hhp, hb⟩ := processEvent_ok_inv tr e0 st rec0 st2 hp
          have haa : a2 = a := by
            have := ha2.symm.trans ha
            injection this
          have hhmm : hm2 = hm := by
            have := hh2.symm.trans hh
            injection this
          subst a2
          subst hm2
          have hids := scanRankings_ok_ids a hm tr st st3 hscan
          have hscan2 := scanRankings_matched a hm hne tr st ta tb ra pa rb pb
            hfa hra hpa hfh hrb hpb hids
          rw [hscan2] at hscan
          injection hscan with hst3
          subst hst3
          simp only [RankState.mk.injEq] at *
          have har2 : some ra = some ar := har
          have hap2 : some pa = some ap := hap
          have hhr2 : some rb = some hr := hhr
          have hhp2 : some pb = some hpv := hhp
          injection har2 with har3
          injection hap2 with hap3
          injection hhr2 with hhr3
          injection hhp2 with hhp3
          subst har3
          subst hap3
          subst hhr3
          subst hhp3
          have l1 : dlookup rec0 "away_rank" = some ra := by
            rw [buildOrdered_lookup _ _ _ hb "away_rank"
              (by simp [desired_key_order]), dlookup_rankUpdate]
            simp
          have l2 : dlookup rec0 "away_rank_points" = some pa := by
            rw [buildOrdered_lookup _ _ _ hb "away_rank_points"
              (by simp [desired_key_order]), dlookup_rankUpdate]
            simp
          have l3 : dlookup rec0 "home_rank" = some rb := by
            rw [buildOrdered_lookup _ _ _ hb "home_rank"
              (by simp [desired_key_order]), dlookup_rankUpdate]
            simp
          have l4 : dlookup rec0 "home_rank_points" = some pb := by
            rw [buildOrdered_lookup _ _ _ hb "home_rank_points"
              (by simp [desired_key_order]), dlookup_rankUpdate]
            simp
          simp [rankFields, l1, l2, l3, l4]
      | succ j =>
          simp only [List.getElem?_cons_succ] at hi
          simp only [List.getElem?_cons_succ]
          exact transformLoop_rank_index tr ta tb a hm ra pa rb pb hne
            hfa hra hpa hfh hrb hpb es st2 rest j e ht hi ha hh

/-! ## Claim C1: canonical key order of the transform output -/

/-- Claim C1: every record produced by a successful `transform_json_data`
carries exactly the 13 canonical keys, in exactly the canonical order. -/
theorem claim_C1_transform_keys (sb tr out : List Dict)
    (h : transform_json_data sb tr = .ok out) :
    ∀ rec ∈ out, rec.map Prod.fst = desired_key_order := by
  unfold transform_json_data at h
  cases hd : add_date_and_time sb with
  | error err => simp only [hd] at h; exact absurd h (by simp)
  | ok dated =>
      simp only [hd] at h
      exact transformLoop_keys tr dated initRankState out h

/-- Witness for claim C1 at the sample run. -/
theorem claim_C1_witness :
    transform_json_data [sampleEvent] sampleRankings = .ok [sampleOutput] ∧
    sampleOutput.map Prod.fst = desired_key_order := by
  have ht : transform_json_data [sampleEvent] sampleRankings
      = .ok [sampleOutput] := by rfl
  exact ⟨ht, claim_C1_transform_keys _ _ _ ht sampleOutput (by simp)⟩

/-! ## Claim C2: the rank join -/

/-- Claim C2 (amended): in a successful transform, an event whose away
and home team ids are distinct and each match exactly one ranking record
receives that record's rank and adjusted points in the corresponding
away/home rank fields of its output record. -/
theorem claim_C2_transform_ranks (sb tr out : List Dict) (i : Nat)
    (e ta tb : Dict) (a hm ra pa rb pb : Value)
    (h : transform_json_data sb tr = .ok out)
    (hi : sb[i]? = some e)
    (ha : dlookup e "away_team_id" = some a)
    (hh : dlookup e "home_team_id" = some hm)
    (hne : a ≠ hm)
    (hfa : tr.filter (teamMatches a) = [ta])
    (hra : dlookup ta "rank" = some ra)
    (hpa : dlookup ta "adjusted_points" = some pa)
    (hfh : tr.filter (teamMatches hm) = [tb])
    (hrb : dlookup tb "rank" = some rb)
    (hpb : dlookup tb "adjusted_points" = some pb) :
    (out[i]?).map rankFields = some (some ra, some pa, some rb, some pb) := by
  unfold transform_json_data at h
  cases hd : add_date_and_time sb with
  | error err => simp only [hd] at h; exact absurd h (by simp)
  | ok dated =>
      simp only [hd] at h
      obtain ⟨hlen, hidx⟩ := add_date_ok_index sb dated hd
      have hdi := hidx i e hi
      have hlt : i < sb.length := by
        by_contra hge
        push_neg at hge
        rw [List.getElem?_eq_none hge] at hi
        exact absurd hi (by simp)
      obtain ⟨e2, he2⟩ : ∃ e2, dated[i]? = some e2 := by
        have hlt2 : i < dated.length := by rw [hlen]; exact hlt
        rw [List.getElem?_eq_getElem hlt2]
        exact ⟨_, rfl⟩
      have hsplit : splitRecord e = .ok e2 := by
        rw [he2] at hdi
        cases hs : splitRecord e with
        | error err => rw [hs] at hdi; simp [Except.toOption] at hdi
        | ok q =>
            rw [hs] at hdi
            simp [Except.toOption] at hdi
            rw [hdi]
      obtain ⟨hpres, _, _⟩ := splitRecord_ok_lookup e e2 hsplit
      have ha2 : dlookup e2 "away_team_id" = some a := by
        rw [hpres _ (by decide) (by decide)]
        exact ha
      have hh2 : dlookup e2 "home_team_id" = some hm := by
        rw [hpres _ (by decide) (by decide)]
        exact hh
      exact transformLoop_rank_index tr ta tb a hm ra pa rb pb hne
        hfa hra hpa hfh hrb hpb dated initRankState out i e2 h he2 ha2 hh2

/-- Witness for claim C2 at the example of the specification. -/
theorem claim_C2_witness :
    (([sampleOutput] : List Dict)[0]?).map rankFields
      = some (some (.n 5), some (.n 10), some (.n 2), some (.n 20)) := by
  have ht : transform_json_data [sampleEvent] sampleRankings
      = .ok [sampleOutput] := by rfl
  exact claim_C2_transform_ranks [sampleEvent] sampleRankings [sampleOutput] 0
    sampleEvent
    [("team_id", .s "T1"), ("rank", .n 5), ("adjusted_points", .n 10)]
    [("team_id", .s "T2"), ("rank", .n 2), ("adjusted_points", .n 20)]
    (.s "T1") (.s "T2") (.n 5) (.n 10) (.n 2) (.n 20)
    ht rfl rfl rfl (by decide) rfl rfl rfl rfl rfl rfl

/-- Counterexample for claim C2 as frozen: an event whose away and home
team id are the same id T1, matched by one ranking record, makes the
claim predict home_rank 5 — but the `elif` never fires for the home
side, the home rank variables stay unassigned, and the transform raises
UnboundLocalError instead of producing a record. -/
theorem claim_C2_counterexample :
    transform_json_data
      [[("event_id", Value.s "E3"), ("event_date", Value.s "2020-01-12 18:30"),
        ("away_team_id", Value.s "T1"), ("away_nick_name", Value.s "J"),
        ("away_city", Value.s "N"), ("home_team_id", Value.s "T1"),
        ("home_nick_name", Value.s "K"), ("home_city", Value.s "M")]]
      [[("team_id", Value.s "T1"), ("rank", Value.n 5),
        ("adjusted_points", Value.n 10)]]
      = .error .nameError := by rfl

/-! ## Claim C3: stale carry-over and unbound rank variables -/

/-- Claim C3: the join loop reuses rank variables across events — an
event matching no ranking record receives the rank values of the last
matched event (stale carry-over), and when no prior event assigned them
the transform fails by referencing an unset local (UnboundLocalError). -/
theorem claim_C3_stale_rank_carry :
    (∀ (tr : List Dict) (e1 e2 ta tb : Dict) (a1 hm1 a2 hm2 : Value)
        (ra pa rb pb : Value) (s1 s2 : String),
      dlookup e1 "event_date" = some (.s s1) → (parseYMDHM s1).isSome →
      dlookup e1 "away_team_id" = some a1 →
      dlookup e1 "home_team_id" = some hm1 → a1 ≠ hm1 →
      tr.filter (teamMatches a1) = [ta] →
      dlookup ta "rank" = some ra → dlookup ta "adjusted_points" = some pa →
      tr.filter (teamMatches hm1) = [tb] →
      dlookup tb "rank" = some rb → dlookup tb "adjusted_points" = some pb →
      (∀ t ∈ tr, (dlookup t "team_id").isSome) →
      (∀ k ∈ eventInputKeys, (dlookup e1 k).isSome) →
      dlookup e2 "event_date" = some (.s s2) → (parseYMDHM s2).isSome →
      dlookup e2 "away_team_id" = some a2 →
      dlookup e2 "home_team_id" = some hm2 →
      tr.filter (teamMatches a2) = [] → tr.filter (teamMatches hm2) = [] →
      (∀ k ∈ eventInputKeys, (dlookup e2 k).isSome) →
      (transform_json_data [e1, e2] tr).map (List.map rankFields)
        = .ok [(some ra, some pa, some rb, some pb),
               (some ra, some pa, some rb, some pb)]) ∧
    (∀ (tr : List Dict) (e : Dict) (rest : List Dict) (a hm : Value) (s : String),
      dlookup e "event_date" = some (.s s) → (parseYMDHM s).isSome →
      dlookup e "away_team_id" = some a → dlookup e "home_team_id" = some hm →
      tr.filter (teamMatches a) = [] → tr.filter (teamMatches hm) = [] →
      (∀ t ∈ tr, (dlookup t "team_id").isSome) →
      (∀ r ∈ rest, ∃ s2, dlookup r "event_date" = some (.s s2)
        ∧ (parseYMDHM s2).isSome) →
      transform_json_data (e :: rest) tr = .error .nameError) := by
  constructor
  · intro tr e1 e2 ta tb a1 hm1 a2 hm2 ra pa rb pb s1 s2 hd1 hp1 ha1 hh1 hne
      hfa hra hpa hfh hrb hpb hids hkeys1 hd2 hp2 ha2 hh2 hfa2 hfh2 hkeys2
    obtain ⟨q1, hq1⟩ := splitRecord_ok_of_parse e1 s1 hd1 hp1
    obtain ⟨q2, hq2⟩ := splitRecord_ok_of_parse e2 s2 hd2 hp2
    have hadd : add_date_and_time [e1, e2] = .ok [q1, q2] := by
      simp [add_date_and_time, hq1, hq2]
    obtain ⟨hpres1, _, _⟩ := splitRecord_ok_lookup e1 q1 hq1
    obtain ⟨hpres2, _, _⟩ := splitRecord_ok_lookup e2 q2 hq2
    have hbase1 := splitRecord_base_keys e1 q1 hq1 hkeys1
    have hbase2 := splitRecord_base_keys e2 q2 hq2 hkeys2
    have ha1q : dlookup q1 "away_team_id" = some a1 := by
      rw [hpres1 _ (by decide) (by decide)]
      exact ha1
    have hh1q : dlookup q1 "home_team_id" = some hm1 := by
      rw [hpres1 _ (by decide) (by decide)]
      exact hh1
    have ha2q : dlookup q2 "away_team_id" = some a2 := by
      rw [hpres2 _ (by decide) (by decide)]
      exact ha2
    have hh2q : dlookup q2 "home_team_id" = some hm2 := by
      rw [hpres2 _ (by decide) (by decide)]
      exact hh2
    obtain ⟨rec1, hpe1, hrf1, _⟩ := processEvent_matched tr q1 initRankState
      a1 hm1 ta tb ra pa rb pb hne ha1q hh1q hfa hra hpa hfh hrb hpb hids hbase1
    obtain ⟨rec2, hpe2, hrf2, _⟩ := processEvent_carry tr q2 ra pa rb pb
      a2 hm2 ha2q hh2q hfa2 hfh2 hids hbase2
    have hloop : transformLoop tr [q1, q2] initRankState = .ok [rec1, rec2] := by
      simp [transformLoop, hpe1, hpe2]
    have htr : transform_json_data [e1, e2] tr = .ok [rec1, rec2] := by
      unfold transform_json_data
      simp only [hadd, hloop]
    rw [htr]
    simp [Except.map, hrf1, hrf2]
  · intro tr e rest a hm s hd hp ha hh hfa hfh hids hrest
    obtain ⟨q, hq⟩ := splitRecord_ok_of_parse e s hd hp
    obtain ⟨qrest, hqrest⟩ := add_date_ok_of_parse rest hrest
    have hadd : add_date_and_time (e :: rest) = .ok (q :: qrest) := by
      simp [add_date_and_time, hq, hqrest]
    obtain ⟨hpresq, _, _⟩ := splitRecord_ok_lookup e q hq
    have haq : dlookup q "away_team_id" = some a := by
      rw [hpresq _ (by decide) (by decide)]
      exact ha
    have hhq : dlookup q "home_team_id" = some hm := by
      rw [hpresq _ (by decide) (by decide)]
      exact hh
    have hpe := processEvent_unset tr q initRankState a hm haq hhq hfa hfh hids rfl
    unfold transform_json_data
    simp only [hadd]
    unfold transformLoop
    simp only [hpe]

/-- Witness for claim C3: the fully matched sample event followed by an
unmatched one carries ranks 5/10/2/20 into the second record, and the
unmatched event run first raises the UnboundLocalError. -/
theorem claim_C3_witness :
    (transform_json_data [sampleEvent, sampleEvent2] sampleRankings).map
        (List.map rankFields)
      = .ok [(some (.n 5), some (.n 10), some (.n 2), some (.n 20)),
             (some (.n 5), some (.n 10), some (.n 2), some (.n 20))] ∧
    transform_json_data [sampleEvent2] sampleRankings = .error .nameError := by
  constructor
  · exact claim_C3_stale_rank_carry.1 sampleRankings sampleEvent sampleEvent2
      [("team_id", .s "T1"), ("rank", .n 5), ("adjusted_points", .n 10)]
      [("team_id", .s "T2"), ("rank", .n 2), ("adjusted_points", .n 20)]
      (.s "T1") (.s "T2") (.s "X1") (.s "X2")
      (.n 5) (.n 10) (.n 2) (.n 20)
      "2020-01-12 18:30" "2020-01-13 12:00"
      rfl (by decide) rfl rfl (by decide) rfl rfl rfl rfl rfl rfl
      (by decide) (by decide) rfl (by decide) rfl rfl rfl rfl (by decide)
  · exact claim_C3_stale_rank_carry.2 sampleRankings sampleEvent2 []
      (.s "X1") (.s "X2") "2020-01-13 12:00"
      rfl (by decide) rfl rfl rfl rfl (by decide)
      (by intro r hr; exact absurd hr (by simp))

end NFL
